import Mathlib

/-!
Shallow embedding of the esp32-alarm firmware core (src/main.rs) and proofs
about it.

The embedding models, directly from the source:
  - the clock decomposition of epoch seconds into hour/minute/second fields
    (main loop, lines 123-127);
  - the schedule-evaluator step of the main loop (log bucket, quiet-hours
    window, hourly alarm, ten-past alarm, lines 129-167), with the dedup
    markers `last_hour`, `last_10_min_alarm`, `last_log_time`;
  - the NTP resync gating (lines 109-120);
  - `play_tone`, `play_alarm_pattern` and `buzzer_control_task`
    (lines 174-274), with the digital output line modelled as a sequence of
    write attempts judged by a failure oracle indexed by a global write
    counter, and each half-period wait modelled as advancing elapsed time by
    exactly the computed half-period (the sleep/spin distinction below the
    `MIN_SLEEP_THRESHOLD_US` threshold does not change the ideal-time trace).

Sleeps that only consume time (beep pauses, the poll interval) are not part
of the observable traces; channel sends are modelled by boolean send-result
oracles whose value the main loop only logs.
-/

/-! ## Timing constants (src/main.rs lines 19-29, 237) -/

def NTP_SYNC_INTERVAL : Nat := 3600

def WIFI_CHECK_INTERVAL : Nat := 30000

def BEEP_COUNT : Nat := 1

def BEEP_DURATION_MS : Nat := 200

def BEEP_PAUSE_MS : Nat := 200

def PATTERN_PAUSE_MS : Nat := 500

def MIN_SLEEP_THRESHOLD_US : Nat := 1000

/-! ## Data model -/

/-- The `BuzzerMessage` type of src/main.rs lines 32-37: the alarm command carried by
the channel.  `repeat_count` is a `u8` in the source, `frequency` a `u32`;
both are modelled as `Nat`, with the `u8` truncation written explicitly
(`% 256`) at the single cast site. -/
inductive BuzzerMessage where
  | PlayAlarm (repeat_count : Nat) (frequency : Nat)
deriving DecidableEq

/-- The mutable loop state of the detection loop (src/main.rs lines 81-84):
`last_hour : i32`, `last_10_min_alarm : i32`, `last_log_time : i64`,
all initialised to `-1`. -/
structure ScheduleState where
  last_hour : Int
  last_10_min_alarm : Int
  last_log_time : Int
deriving DecidableEq

/-- Initial detection-loop state (src/main.rs lines 81-84). -/
def initialState : ScheduleState := ⟨-1, -1, -1⟩

/-! ## Clock sampler (src/main.rs lines 123-127) -/

def hourOf (t : Nat) : Nat := (t / 3600) % 24

def minOf (t : Nat) : Nat := (t / 60) % 60

def secOf (t : Nat) : Nat := t % 60

/-- The wall-clock sample derived from epoch seconds. -/
structure ClockFields where
  hours : Nat
  minutes : Nat
  seconds : Nat
deriving DecidableEq

def clockSample (t : Nat) : ClockFields := ⟨hourOf t, minOf t, secOf t⟩

/-! ## Schedule evaluator (src/main.rs lines 129-167) -/

/-- The `current_log_key` value of src/main.rs line 130: `((hours * 60 + mins) / 5) as i64`. -/
def logKey (now : Nat) : Int := ((hourOf now * 60 + minOf now) / 5 : Nat)

/-- Condition of src/main.rs line 131: `current_log_key != last_log_time && mins % 5 == 0`. -/
def logGuard (s : ScheduleState) (now : Nat) : Prop :=
  logKey now ≠ s.last_log_time ∧ minOf now % 5 = 0

instance (s : ScheduleState) (now : Nat) : Decidable (logGuard s now) := by
  unfold logGuard; exact inferInstance

/-- The `is_alarm_time` condition of src/main.rs line 137: `hours >= 7 && hours <= 23`. -/
def isAlarmTime (now : Nat) : Prop := 7 ≤ hourOf now ∧ hourOf now ≤ 23

instance (now : Nat) : Decidable (isAlarmTime now) := by
  unfold isAlarmTime; exact inferInstance

/-- Condition of src/main.rs line 140:
`hours as i32 != last_hour && mins == 0 && is_alarm_time`. -/
def hourlyGuard (s : ScheduleState) (now : Nat) : Prop :=
  (hourOf now : Int) ≠ s.last_hour ∧ minOf now = 0 ∧ isAlarmTime now

instance (s : ScheduleState) (now : Nat) : Decidable (hourlyGuard s now) := by
  unfold hourlyGuard; exact inferInstance

/-- Condition of src/main.rs line 155:
`hours as i32 != last_10_min_alarm && mins == 10 && is_alarm_time`. -/
def tenPastGuard (s : ScheduleState) (now : Nat) : Prop :=
  (hourOf now : Int) ≠ s.last_10_min_alarm ∧ minOf now = 10 ∧ isAlarmTime now

instance (s : ScheduleState) (now : Nat) : Decidable (tenPastGuard s now) := by
  unfold tenPastGuard; exact inferInstance

/-- One iteration of the time-checking body of the main loop
(src/main.rs lines 122-167), given the epoch-seconds reading `now`.
`okH` and `okT` are the results of the two `buzzer_tx.send` call sites
(hourly alarm, line 146, and ten-past alarm, line 160) when those sends are
attempted; the source only logs a send failure, so the send results appear
in the emitted message list but influence neither the state update nor
control flow.  The marker assignments (`last_hour = hours`, line 141;
`last_10_min_alarm = hours`, line 156) precede the corresponding send in the
source, which is why the state components below do not depend on `okH`/`okT`. -/
def scheduleStep (s : ScheduleState) (now : Nat) (okH okT : Bool) :
    ScheduleState × List (BuzzerMessage × Bool) :=
  let s1 := if logGuard s now then { s with last_log_time := logKey now } else s
  let s2 := if hourlyGuard s1 now then { s1 with last_hour := (hourOf now : Int) } else s1
  let m1 := if hourlyGuard s1 now then
      [(BuzzerMessage.PlayAlarm (hourOf now % 256) 2000, okH)] else []
  let s3 := if tenPastGuard s2 now then
      { s2 with last_10_min_alarm := (hourOf now : Int) } else s2
  let m2 := if tenPastGuard s2 now then [(BuzzerMessage.PlayAlarm 3 2600, okT)] else []
  (s3, m1 ++ m2)

/-! ## Basic facts about the clock fields -/

lemma hourOf_lt (t : Nat) : hourOf t < 24 := Nat.mod_lt _ (by norm_num)

lemma minOf_lt (t : Nat) : minOf t < 60 := Nat.mod_lt _ (by norm_num)

lemma secOf_lt (t : Nat) : secOf t < 60 := Nat.mod_lt _ (by norm_num)

lemma hourOf_mod256 (t : Nat) : hourOf t % 256 = hourOf t :=
  Nat.mod_eq_of_lt (lt_trans (hourOf_lt t) (by norm_num))

/-- Claim C5: the clock sampler computes `hours = (t / 3600) mod 24`,
`minutes = (t / 60) mod 60`, `seconds = t mod 60`; these are in range and
recompose to `t mod 86400`. -/
theorem clock_sample_spec (t : Nat) :
    (clockSample t).hours = (t / 3600) % 24 ∧
    (clockSample t).minutes = (t / 60) % 60 ∧
    (clockSample t).seconds = t % 60 ∧
    (clockSample t).hours ≤ 23 ∧
    (clockSample t).minutes ≤ 59 ∧
    (clockSample t).seconds ≤ 59 ∧
    t % 86400 = (clockSample t).hours * 3600 + (clockSample t).minutes * 60 +
      (clockSample t).seconds := by
  refine ⟨rfl, rfl, rfl, ?_, ?_, ?_, ?_⟩
  · exact Nat.lt_succ_iff.mp (hourOf_lt t)
  · exact Nat.lt_succ_iff.mp (minOf_lt t)
  · exact Nat.lt_succ_iff.mp (secOf_lt t)
  · show t % 86400 = hourOf t * 3600 + minOf t * 60 + secOf t
    unfold hourOf minOf secOf
    have h1 := Nat.div_add_mod t 60
    have h2 := Nat.div_add_mod (t / 60) 60
    have h3 := Nat.div_add_mod (t / 3600) 24
    have h4 := Nat.div_add_mod t 86400
    have e1 : t / 60 / 60 = t / 3600 := by
      rw [Nat.div_div_eq_div_mul]
    have e2 : t / 3600 / 24 = t / 86400 := by
      rw [Nat.div_div_eq_div_mul]
    have m1 : t % 60 < 60 := Nat.mod_lt _ (by norm_num)
    have m2 : (t / 60) % 60 < 60 := Nat.mod_lt _ (by norm_num)
    have m3 : (t / 3600) % 24 < 24 := Nat.mod_lt _ (by norm_num)
    have m4 : t % 86400 < 86400 := Nat.mod_lt _ (by norm_num)
    omega


lemma scheduleStep_eq (s : ScheduleState) (now : Nat) (okH okT : Bool) :
    scheduleStep s now okH okT =
      ({ last_hour := if hourlyGuard s now then (hourOf now : Int) else s.last_hour,
         last_10_min_alarm :=
           if tenPastGuard s now then (hourOf now : Int) else s.last_10_min_alarm,
         last_log_time := if logGuard s now then logKey now else s.last_log_time },
       (if hourlyGuard s now then
          [(BuzzerMessage.PlayAlarm (hourOf now % 256) 2000, okH)] else []) ++
       (if tenPastGuard s now then [(BuzzerMessage.PlayAlarm 3 2600, okT)] else [])) := by
  simp only [scheduleStep]
  by_cases hL : logGuard s now
  · have hH1 : hourlyGuard ⟨s.last_hour, s.last_10_min_alarm, logKey now⟩ now ↔
        hourlyGuard s now := Iff.rfl
    by_cases hH : hourlyGuard s now
    · have hT1 : tenPastGuard ⟨(hourOf now : Int), s.last_10_min_alarm, logKey now⟩ now ↔
          tenPastGuard s now := Iff.rfl
      by_cases hT : tenPastGuard s now <;>
        simp only [hL, hH, hT, hH1, hT1, if_true, if_false, ite_true, ite_false,
          eq_self_iff_true, not_true, not_false_iff]
    · have hT1 : tenPastGuard ⟨s.last_hour, s.last_10_min_alarm, logKey now⟩ now ↔
          tenPastGuard s now := Iff.rfl
      by_cases hT : tenPastGuard s now <;>
        simp only [hL, hH, hT, hH1, hT1, if_true, if_false, ite_true, ite_false]
  · by_cases hH : hourlyGuard s now
    · have hT1 : tenPastGuard ⟨(hourOf now : Int), s.last_10_min_alarm, s.last_log_time⟩
          now ↔ tenPastGuard s now := Iff.rfl
      by_cases hT : tenPastGuard s now <;>
        simp only [hL, hH, hT, hT1, if_true, if_false, ite_true, ite_false]
    · by_cases hT : tenPastGuard s now <;>
        simp only [hL, hH, hT, if_true, if_false, ite_true, ite_false]

lemma hourlyGuard_iff (s : ScheduleState) (now : Nat) :
    hourlyGuard s now ↔
      (minOf now = 0 ∧ 7 ≤ hourOf now ∧ hourOf now ≤ 23 ∧
        (hourOf now : Int) ≠ s.last_hour) := by
  unfold hourlyGuard isAlarmTime; tauto

lemma tenPastGuard_iff (s : ScheduleState) (now : Nat) :
    tenPastGuard s now ↔
      (minOf now = 10 ∧ 7 ≤ hourOf now ∧ hourOf now ≤ 23 ∧
        (hourOf now : Int) ≠ s.last_10_min_alarm) := by
  unfold tenPastGuard isAlarmTime; tauto

/-- Claim C1: the hourly alarm `PlayAlarm{repeat_count = hours, frequency = 2000}`
is emitted by a schedule-evaluator step iff `minutes = 0`, `hours` lies in the
quiet-hours window `[7, 23]`, and `hours` differs from the `last_hour` marker;
and the step sets `last_hour := hours` exactly when it fires.  (`okH`, `okT` are
the channel-send results; they do not influence firing.) -/
theorem hourly_alarm_iff (s : ScheduleState) (now : Nat) (okH okT : Bool) :
    ((BuzzerMessage.PlayAlarm (hourOf now) 2000, okH) ∈ (scheduleStep s now okH okT).2 ↔
      (minOf now = 0 ∧ 7 ≤ hourOf now ∧ hourOf now ≤ 23 ∧
        (hourOf now : Int) ≠ s.last_hour)) ∧
    (scheduleStep s now okH okT).1.last_hour =
      (if minOf now = 0 ∧ 7 ≤ hourOf now ∧ hourOf now ≤ 23 ∧
          (hourOf now : Int) ≠ s.last_hour
       then (hourOf now : Int) else s.last_hour) := by
  rw [scheduleStep_eq]
  by_cases hH : hourlyGuard s now <;> by_cases hT : tenPastGuard s now <;>
    simp [hH, hT, hourOf_mod256, ← hourlyGuard_iff, ← tenPastGuard_iff]

/-- Claim C2: the ten-past alarm `PlayAlarm{repeat_count = 3, frequency = 2600}`
is emitted by a schedule-evaluator step iff `minutes = 10`, `hours` lies in the
quiet-hours window `[7, 23]`, and `hours` differs from the `last_10_min_alarm`
marker; and the step sets `last_10_min_alarm := hours` exactly when it fires. -/
theorem ten_past_alarm_iff (s : ScheduleState) (now : Nat) (okH okT : Bool) :
    ((BuzzerMessage.PlayAlarm 3 2600, okT) ∈ (scheduleStep s now okH okT).2 ↔
      (minOf now = 10 ∧ 7 ≤ hourOf now ∧ hourOf now ≤ 23 ∧
        (hourOf now : Int) ≠ s.last_10_min_alarm)) ∧
    (scheduleStep s now okH okT).1.last_10_min_alarm =
      (if minOf now = 10 ∧ 7 ≤ hourOf now ∧ hourOf now ≤ 23 ∧
          (hourOf now : Int) ≠ s.last_10_min_alarm
       then (hourOf now : Int) else s.last_10_min_alarm) := by
  rw [scheduleStep_eq]
  by_cases hH : hourlyGuard s now <;> by_cases hT : tenPastGuard s now <;>
    simp [hH, hT, hourOf_mod256, ← hourlyGuard_iff, ← tenPastGuard_iff]

/-! ## Firing counts along a trace of polls -/

/-- Whether the message list emitted by a step contains an alarm of frequency `f`
(2000 identifies the hourly alarm, 2600 the ten-past alarm). -/
def hasFreq (f : Nat) (msgs : List (BuzzerMessage × Bool)) : Bool :=
  msgs.any fun p => match p.1 with | BuzzerMessage.PlayAlarm _ fr => fr == f

/-- Number of steps that emit an alarm of frequency `f` when the detection
loop runs through the epoch-second samples `ts` from state `s`. -/
def countFreq (f : Nat) : ScheduleState → List Nat → Nat
  | _, [] => 0
  | s, t :: ts =>
    (if hasFreq f (scheduleStep s t true true).2 then 1 else 0) +
      countFreq f (scheduleStep s t true true).1 ts

lemma step_last_hour (s : ScheduleState) (t : Nat) (okH okT : Bool) :
    (scheduleStep s t okH okT).1.last_hour =
      if hourlyGuard s t then (hourOf t : Int) else s.last_hour := by
  rw [scheduleStep_eq]

lemma step_last_10 (s : ScheduleState) (t : Nat) (okH okT : Bool) :
    (scheduleStep s t okH okT).1.last_10_min_alarm =
      if tenPastGuard s t then (hourOf t : Int) else s.last_10_min_alarm := by
  rw [scheduleStep_eq]

lemma hasFreq_step_2000 (s : ScheduleState) (t : Nat) (okH okT : Bool) :
    hasFreq 2000 (scheduleStep s t okH okT).2 = true ↔ hourlyGuard s t := by
  rw [scheduleStep_eq]
  by_cases hH : hourlyGuard s t <;> by_cases hT : tenPastGuard s t <;>
    simp [hasFreq, hH, hT]

lemma hasFreq_step_2600 (s : ScheduleState) (t : Nat) (okH okT : Bool) :
    hasFreq 2600 (scheduleStep s t okH okT).2 = true ↔ tenPastGuard s t := by
  rw [scheduleStep_eq]
  by_cases hH : hourlyGuard s t <;> by_cases hT : tenPastGuard s t <;>
    simp [hasFreq, hH, hT]

lemma countFreq_2000_zero (h : Nat) : ∀ (ts : List Nat) (s : ScheduleState),
    s.last_hour = (h : Int) → (∀ t ∈ ts, hourOf t = h) → countFreq 2000 s ts = 0 := by
  intro ts
  induction ts with
  | nil => intro s _ _; rfl
  | cons t ts ih =>
    intro s hs hall
    have hht : hourOf t = h := hall t (List.mem_cons_self t ts)
    have hguard : ¬ hourlyGuard s t := fun hg => hg.1 (by rw [hht, hs])
    have hf : hasFreq 2000 (scheduleStep s t true true).2 = false :=
      Bool.eq_false_iff.mpr fun hb => hguard ((hasFreq_step_2000 s t true true).mp hb)
    have hstate : (scheduleStep s t true true).1.last_hour = (h : Int) := by
      rw [step_last_hour, if_neg hguard, hs]
    simp only [countFreq, hf, if_false, Bool.false_eq_true, Nat.zero_add]
    exact ih _ hstate fun u hu => hall u (List.mem_cons_of_mem t hu)

lemma countFreq_2600_zero (h : Nat) : ∀ (ts : List Nat) (s : ScheduleState),
    s.last_10_min_alarm = (h : Int) → (∀ t ∈ ts, hourOf t = h) →
    countFreq 2600 s ts = 0 := by
  intro ts
  induction ts with
  | nil => intro s _ _; rfl
  | cons t ts ih =>
    intro s hs hall
    have hht : hourOf t = h := hall t (List.mem_cons_self t ts)
    have hguard : ¬ tenPastGuard s t := fun hg => hg.1 (by rw [hht, hs])
    have hf : hasFreq 2600 (scheduleStep s t true true).2 = false :=
      Bool.eq_false_iff.mpr fun hb => hguard ((hasFreq_step_2600 s t true true).mp hb)
    have hstate : (scheduleStep s t true true).1.last_10_min_alarm = (h : Int) := by
      rw [step_last_10, if_neg hguard, hs]
    simp only [countFreq, hf, if_false, Bool.false_eq_true, Nat.zero_add]
    exact ih _ hstate fun u hu => hall u (List.mem_cons_of_mem t hu)

lemma countFreq_2000_le_one (h : Nat) : ∀ (ts : List Nat) (s : ScheduleState),
    (∀ t ∈ ts, hourOf t = h) → countFreq 2000 s ts ≤ 1 := by
  intro ts
  induction ts with
  | nil => intro s _; exact Nat.zero_le 1
  | cons t ts ih =>
    intro s hall
    have hht : hourOf t = h := hall t (List.mem_cons_self t ts)
    have htail : ∀ u ∈ ts, hourOf u = h := fun u hu => hall u (List.mem_cons_of_mem t hu)
    by_cases hg : hourlyGuard s t
    · have hf : hasFreq 2000 (scheduleStep s t true true).2 = true :=
        (hasFreq_step_2000 s t true true).mpr hg
      have hstate : (scheduleStep s t true true).1.last_hour = (h : Int) := by
        rw [step_last_hour, if_pos hg, hht]
      have hzero := countFreq_2000_zero h ts _ hstate htail
      simp only [countFreq, hf, if_true, hzero]
      exact Nat.le_refl 1
    · have hf : hasFreq 2000 (scheduleStep s t true true).2 = false :=
        Bool.eq_false_iff.mpr fun hb => hg ((hasFreq_step_2000 s t true true).mp hb)
      simp only [countFreq, hf, if_false, Bool.false_eq_true, Nat.zero_add]
      exact ih _ htail

lemma countFreq_2600_le_one (h : Nat) : ∀ (ts : List Nat) (s : ScheduleState),
    (∀ t ∈ ts, hourOf t = h) → countFreq 2600 s ts ≤ 1 := by
  intro ts
  induction ts with
  | nil => intro s _; exact Nat.zero_le 1
  | cons t ts ih =>
    intro s hall
    have hht : hourOf t = h := hall t (List.mem_cons_self t ts)
    have htail : ∀ u ∈ ts, hourOf u = h := fun u hu => hall u (List.mem_cons_of_mem t hu)
    by_cases hg : tenPastGuard s t
    · have hf : hasFreq 2600 (scheduleStep s t true true).2 = true :=
        (hasFreq_step_2600 s t true true).mpr hg
      have hstate : (scheduleStep s t true true).1.last_10_min_alarm = (h : Int) := by
        rw [step_last_10, if_pos hg, hht]
      have hzero := countFreq_2600_zero h ts _ hstate htail
      simp only [countFreq, hf, if_true, hzero]
      exact Nat.le_refl 1
    · have hf : hasFreq 2600 (scheduleStep s t true true).2 = false :=
        Bool.eq_false_iff.mpr fun hb => hg ((hasFreq_step_2600 s t true true).mp hb)
      simp only [countFreq, hf, if_false, Bool.false_eq_true, Nat.zero_add]
      exact ih _ htail

/-- Claim C3: from any detection-loop state (in particular the initial one),
over any run of consecutive polls that all observe the same hour `h`, each
alarm kind fires at most once: once a dedup marker is set to `h` the guard
`hours != marker` blocks re-firing until a different hour is observed. -/
theorem dedup_at_most_once_per_hour (h : Nat) (s : ScheduleState) (ts : List Nat)
    (hall : ∀ t ∈ ts, hourOf t = h) :
    countFreq 2000 s ts ≤ 1 ∧ countFreq 2600 s ts ≤ 1 :=
  ⟨countFreq_2000_le_one h ts s hall, countFreq_2600_le_one h ts s hall⟩

/-- Witness for C3: three polls inside hour 8 (08:00:00, 08:00:01, 08:10:00)
starting from the initial state. -/
theorem dedup_at_most_once_per_hour_w :
    countFreq 2000 initialState [28800, 28801, 29400] ≤ 1 ∧
    countFreq 2600 initialState [28800, 28801, 29400] ≤ 1 :=
  dedup_at_most_once_per_hour 8 initialState [28800, 28801, 29400] (by decide)

/-- Claim C4: when the sampled hour is outside the quiet-hours window `[7, 23]`,
a step emits no alarm of either kind and leaves both dedup markers unchanged
(so re-entering the window at the same hour can still fire). -/
theorem outside_window_frame (s : ScheduleState) (now : Nat) (okH okT : Bool)
    (hout : ¬ (7 ≤ hourOf now ∧ hourOf now ≤ 23)) :
    (scheduleStep s now okH okT).2 = [] ∧
    (scheduleStep s now okH okT).1.last_hour = s.last_hour ∧
    (scheduleStep s now okH okT).1.last_10_min_alarm = s.last_10_min_alarm := by
  have hH : ¬ hourlyGuard s now := fun hg => hout hg.2.2
  have hT : ¬ tenPastGuard s now := fun hg => hout hg.2.2
  rw [scheduleStep_eq]
  simp [hH, hT]

/-- Witness for C4: midnight (hour 0) from the initial state. -/
theorem outside_window_frame_w :
    (scheduleStep initialState 0 true true).2 = [] ∧
    (scheduleStep initialState 0 true true).1.last_hour = initialState.last_hour ∧
    (scheduleStep initialState 0 true true).1.last_10_min_alarm =
      initialState.last_10_min_alarm :=
  outside_window_frame initialState 0 true true (by decide)

/-- Claim C10: each dedup marker is assigned before the corresponding channel
send is attempted, so the post-step state does not depend on either send
result.  In particular: after a step whose hourly alarm fired with a failed
send (`okH = false`), the `last_hour` marker already holds the current hour
and the hourly alarm is not emitted again at any later poll of the same hour;
symmetrically, after a ten-past firing with a failed send (`okT = false`), the
`last_10_min_alarm` marker is set and the ten-past alarm is not emitted again
for the rest of that hour.  Either alarm whose send failed is permanently
lost for that hour.  The two event kinds are exercised on independent
scenarios (`s, now, ts` for the hourly one, `s2, now2, ts2` for the ten-past
one) because their minute marks (0 and 10) cannot coincide. -/
theorem marker_set_before_send (s s2 : ScheduleState) (now now2 : Nat)
    (okT okH : Bool) (ts ts2 : List Nat)
    (hgH : hourlyGuard s now) (hsH : ∀ t ∈ ts, hourOf t = hourOf now)
    (hgT : tenPastGuard s2 now2) (hsT : ∀ t ∈ ts2, hourOf t = hourOf now2) :
    (scheduleStep s now false okT).1 = (scheduleStep s now true okT).1 ∧
    (scheduleStep s now false okT).1.last_hour = (hourOf now : Int) ∧
    countFreq 2000 (scheduleStep s now false okT).1 ts = 0 ∧
    (scheduleStep s2 now2 okH false).1 = (scheduleStep s2 now2 okH true).1 ∧
    (scheduleStep s2 now2 okH false).1.last_10_min_alarm = (hourOf now2 : Int) ∧
    countFreq 2600 (scheduleStep s2 now2 okH false).1 ts2 = 0 := by
  have h1 : (scheduleStep s now false okT).1.last_hour = (hourOf now : Int) := by
    rw [step_last_hour, if_pos hgH]
  have h2 : (scheduleStep s2 now2 okH false).1.last_10_min_alarm =
      (hourOf now2 : Int) := by
    rw [step_last_10, if_pos hgT]
  refine ⟨?_, h1, ?_, ?_, h2, ?_⟩
  · rw [scheduleStep_eq, scheduleStep_eq]
  · exact countFreq_2000_zero (hourOf now) ts _ h1 hsH
  · rw [scheduleStep_eq, scheduleStep_eq]
  · exact countFreq_2600_zero (hourOf now2) ts2 _ h2 hsT

/-- Witness for C10: hourly fire at 08:00:00 with a failed send, followed by
polls at 08:00:01, 08:20:00 and 08:59:59; ten-past fire at 08:10:00 with a
failed send, followed by polls at 08:10:01 and 08:20:00. -/
theorem marker_set_before_send_w :
    (scheduleStep initialState 28800 false true).1 =
      (scheduleStep initialState 28800 true true).1 ∧
    (scheduleStep initialState 28800 false true).1.last_hour = (hourOf 28800 : Int) ∧
    countFreq 2000 (scheduleStep initialState 28800 false true).1
      [28801, 30000, 32399] = 0 ∧
    (scheduleStep initialState 29400 true false).1 =
      (scheduleStep initialState 29400 true true).1 ∧
    (scheduleStep initialState 29400 true false).1.last_10_min_alarm =
      (hourOf 29400 : Int) ∧
    countFreq 2600 (scheduleStep initialState 29400 true false).1 [29401, 30000] = 0 :=
  marker_set_before_send initialState initialState 28800 29400 true true
    [28801, 30000, 32399] [29401, 30000] (by decide) (by decide) (by decide) (by decide)

/-! ## NTP resync gating (src/main.rs lines 108-120) -/

/-- One evaluation of the NTP-sync block of the main loop.  `last_sync_time`
and `now` are wall-clock seconds; `elapsed = now - last_sync_time`.  The block
attempts a resync iff `elapsed > NTP_SYNC_INTERVAL`; on success
(`syncOk = true`, the `Ok` branch of `setup_sntp()`) it sets
`last_sync_time = now`, on failure it only logs, leaving `last_sync_time`
unchanged.  Returns (attempted, new last_sync_time). -/
def ntpCheck (last_sync_time now : Nat) (syncOk : Bool) : Bool × Nat :=
  if NTP_SYNC_INTERVAL < now - last_sync_time then
    if syncOk then (true, now) else (true, last_sync_time)
  else (false, last_sync_time)

/-- Counterexample to claim C7: with `last_sync_time = 0`, a resync attempt
fails at `now = 3601`; at the very next poll (`now = 3602`, one second later)
another attempt is made, even though only 1 s — far less than the 3600 s
interval — has elapsed since the previous attempt.  The code does not wait for
the next interval after a failure. -/
theorem ntp_retry_cex :
    (ntpCheck 0 3601 false).1 = true ∧
    (ntpCheck ((ntpCheck 0 3601 false).2) 3602 false).1 = true := by
  decide

/-- Claim C7 (amended): an attempt is made exactly when strictly more than
`NTP_SYNC_INTERVAL` seconds have elapsed since the last *successful* resync
(`last2`/`now2` instances of the iff); a failed attempt does not advance
`last_sync_time`, so after a failure at `now` every poll at `now' ≥ now`
attempts again immediately rather than waiting for the next interval. -/
theorem ntp_resync_amended (last now now' last2 now2 : Nat) (ok2 : Bool)
    (hattempt : (ntpCheck last now false).1 = true) (hle : now ≤ now') :
    ((ntpCheck last2 now2 ok2).1 = true ↔ NTP_SYNC_INTERVAL < now2 - last2) ∧
    (ntpCheck last now false).2 = last ∧
    (ntpCheck last now' false).1 = true := by
  have hiff : ∀ (a b : Nat) (ok : Bool),
      (ntpCheck a b ok).1 = true ↔ NTP_SYNC_INTERVAL < b - a := by
    intro a b ok
    unfold ntpCheck
    by_cases h : NTP_SYNC_INTERVAL < b - a
    · cases ok <;> simp [h]
    · simp [h]
  have helapsed : NTP_SYNC_INTERVAL < now - last := (hiff last now false).mp hattempt
  refine ⟨hiff last2 now2 ok2, ?_, ?_⟩
  · unfold ntpCheck
    rw [if_pos helapsed]
    simp
  · exact (hiff last now' false).mpr (by omega)

/-- Witness for the amended C7: failed attempt at `now = 3601` from reference 0,
next poll at 3602. -/
theorem ntp_resync_amended_w :
    ((ntpCheck 10 4000 true).1 = true ↔ NTP_SYNC_INTERVAL < 4000 - 10) ∧
    (ntpCheck 0 3601 false).2 = 0 ∧
    (ntpCheck 0 3602 false).1 = true :=
  ntp_resync_amended 0 3601 3602 10 4000 true (by decide) (by decide)

/-! ## Tone generator (src/main.rs lines 216-274)

The output line is modelled as the sequence of successful writes, each a pair
(level written, microseconds the level is held before the next write).  Write
attempts are numbered globally; the oracle `fail` says whether the n-th write
attempt returns an error (`set_high()?` / `set_low()?`).  An error aborts the
current tone immediately (`?` operator) carrying the next write index.

Per the timing model stipulated by claim C9, each half-period wait advances elapsed time by
exactly `half_period_us`; whether the source sleeps or spin-waits (threshold
`MIN_SLEEP_THRESHOLD_US`) changes only CPU usage, not this ideal trace.  The
`while elapsed_us() < duration_us` loop advances elapsed time by `2 * h` per
iteration, so it runs at most `duration_us` iterations when `h ≥ 1`; the
structural `fuel` argument (instantiated to `duration_us`) makes that bound
explicit.  For `h = 0` (`freq_hz > 500000`) the ideal-time model does not
terminate and is outside the scope of the model. -/

/-- The waveform loop `while elapsed_us() < duration_us` of `play_tone` (src/main.rs
lines 247-271): `h` is `half_period_us`, `D` is `duration_us`, `e` the elapsed
microseconds, `idx` the next write-attempt number. -/
def toneLoop (fail : Nat → Bool) (h D : Nat) :
    Nat → Nat → Nat → Except Nat (Nat × List (Bool × Nat))
  | 0, _, idx => .ok (idx, [])
  | fuel + 1, e, idx =>
    if e < D then
      if fail idx then .error (idx + 1)
      else if fail (idx + 1) then .error (idx + 2)
      else
        match toneLoop fail h D fuel (e + 2 * h) (idx + 2) with
        | .error j => .error j
        | .ok (j, evs) => .ok (j, (true, h) :: (false, h) :: evs)
    else .ok (idx, [])

/-- The function `play_tone` (src/main.rs lines 217-274).  `freq_hz = 0`: one write high,
held `duration_ms` (recorded in µs), then one write low.  Otherwise the
square-wave loop with `half_period_us = 500_000 / freq_hz` until elapsed time
reaches `duration_ms * 1000` µs. -/
def playTone (fail : Nat → Bool) (freq_hz duration_ms idx : Nat) :
    Except Nat (Nat × List (Bool × Nat)) :=
  if freq_hz = 0 then
    if fail idx then .error (idx + 1)
    else if fail (idx + 1) then .error (idx + 2)
    else .ok (idx + 2, [(true, duration_ms * 1000), (false, 0)])
  else
    toneLoop fail (500000 / freq_hz) (duration_ms * 1000) (duration_ms * 1000) 0 idx

/-- Number of level toggles `play_tone` performs with no write failures. -/
def toneToggles (freq_hz duration_ms : Nat) : Nat :=
  match playTone (fun _ => false) freq_hz duration_ms 0 with
  | .ok (_, evs) => evs.length
  | .error _ => 0

/-- Ceiling division, used to state the toggle count. -/
def cdiv (a b : Nat) : Nat := (a + b - 1) / b

lemma cdiv_step (x b : Nat) (hb : 0 < b) (hx : 0 < x) :
    cdiv x b = cdiv (x - b) b + 1 := by
  unfold cdiv
  rcases le_or_lt b x with hbx | hxb
  · have h1 : x + b - 1 = (x - b + b - 1) + b := by omega
    rw [h1, Nat.add_div_right _ hb]
  · have h0 : x - b = 0 := by omega
    have h2 : x + b - 1 = (x - 1) + b := by omega
    rw [h0, h2, Nat.add_div_right _ hb,
      Nat.div_eq_of_lt (show x - 1 < b by omega),
      Nat.div_eq_of_lt (show 0 + b - 1 < b by omega)]

lemma cdiv_of_zero (b : Nat) (hb : 0 < b) : cdiv 0 b = 0 := by
  unfold cdiv
  exact Nat.div_eq_of_lt (by omega)

/-- With no write failures and a positive half-period, the loop completes and
performs exactly `2 * ⌈(D - e) / (2h)⌉` toggles, provided enough fuel. -/
lemma toneLoop_len (h D : Nat) (hh : 0 < h) :
    ∀ (fuel e idx : Nat), D ≤ e + fuel →
    ∃ evs : List (Bool × Nat),
      toneLoop (fun _ => false) h D fuel e idx =
        .ok (idx + 2 * cdiv (D - e) (2 * h), evs) ∧
      evs.length = 2 * cdiv (D - e) (2 * h) := by
  intro fuel
  induction fuel with
  | zero =>
    intro e idx hfuel
    have he : D - e = 0 := by omega
    refine ⟨[], ?_, ?_⟩ <;>
      simp [toneLoop, he, cdiv_of_zero _ (by omega : 0 < 2 * h)]
  | succ fuel ih =>
    intro e idx hfuel
    by_cases he : e < D
    · obtain ⟨evs, hrun, hlen⟩ := ih (e + 2 * h) (idx + 2) (by omega)
      have hstep : cdiv (D - e) (2 * h) = cdiv (D - (e + 2 * h)) (2 * h) + 1 := by
        have h2 : D - (e + 2 * h) = (D - e) - 2 * h := by omega
        rw [h2]
        exact cdiv_step _ _ (by omega) (by omega)
      refine ⟨(true, h) :: (false, h) :: evs, ?_, ?_⟩
      · simp only [toneLoop, if_pos he, Bool.false_eq_true, if_false, hrun, hstep,
          Except.ok.injEq, Prod.mk.injEq, and_true]
        omega
      · simp only [List.length_cons, hlen, hstep]
        omega
    · have he0 : D - e = 0 := by omega
      refine ⟨[], ?_, ?_⟩ <;>
        simp [toneLoop, he, he0, cdiv_of_zero _ (by omega : 0 < 2 * h)]

lemma toneToggles_formula (f d : Nat) (hf : 0 < 500000 / f) :
    toneToggles f d = 2 * cdiv (d * 1000) (2 * (500000 / f)) := by
  have hf0 : f ≠ 0 := by
    intro h0
    rw [h0, Nat.div_zero] at hf
    exact Nat.lt_irrefl 0 hf
  unfold toneToggles playTone
  rw [if_neg hf0]
  obtain ⟨evs, hrun, hlen⟩ :=
    toneLoop_len (500000 / f) (d * 1000) hf (d * 1000) 0 0 (by omega)
  rw [hrun]
  simpa using hlen

/-- Claim C8: with `frequency_hz = 0` (and writes succeeding), `play_tone`
performs exactly one high-then-low transition: the line is driven high, held
for the full `duration_ms` (i.e. `duration_ms * 1000` µs), then driven low,
with no further toggles. -/
theorem play_tone_zero_freq (duration_ms : Nat) :
    playTone (fun _ => false) 0 duration_ms 0 =
      .ok (2, [(true, duration_ms * 1000), (false, 0)]) := by
  simp [playTone]

/-- Counterexample to claim C9: for `frequency_hz = 999`, `duration_ms = 1000`
the loop performs 2000 toggles (`half_period_us = 500000 / 999 = 500`, so 1000
iterations of two toggles each), while `2 * d * f / 1000 = 1998`; the toggle
count exceeds that by 2, so it is not within one unit of `2 * d * f / 1000`. -/
theorem tone_toggle_cex : 2 * 1000 * 999 / 1000 + 1 < toneToggles 999 1000 := by
  have h := toneToggles_formula 999 1000 (by decide)
  rw [h]
  decide

/-- Claim C9 (amended): for `frequency_hz = f` with `half_period_us =
500_000 / f ≥ 1` and `duration_ms = d`, modelling each half-period wait as
advancing elapsed time by exactly `half_period_us`, the number of level
toggles is exactly `2 * ⌈(d * 1000) / (2 * half_period_us)⌉` (each loop
iteration toggles twice and advances elapsed time by a full period); it is
not in general within one unit of `2 * d * f / 1000`. -/
theorem tone_toggle_amended (f d : Nat) (hf : 0 < 500000 / f) :
    toneToggles f d = 2 * cdiv (d * 1000) (2 * (500000 / f)) :=
  toneToggles_formula f d hf

/-- Witness for the amended C9: the alarm tone itself (2000 Hz for 200 ms)
gives `half_period_us = 250` and exactly 800 toggles. -/
theorem tone_toggle_amended_w : toneToggles 2000 200 = 800 :=
  (tone_toggle_amended 2000 200 (by decide)).trans (by decide)

/-! ## Pattern player and buzzer worker (src/main.rs lines 173-214) -/

/-- The inner `for _ in 0..BEEP_COUNT` loop of `play_alarm_pattern`
(src/main.rs lines 206-209): each beep is `play_tone(buzzer, frequency,
BEEP_DURATION_MS)?` followed by a pause.  The `?` aborts the pattern on error.
Returns (final write index or error payload, number of `play_tone` calls
made). -/
def beepLoop (fail : Nat → Bool) : Nat → Nat → Nat → (Except Nat Nat) × Nat
  | 0, _, idx => (.ok idx, 0)
  | n + 1, f, idx =>
    match playTone fail f BEEP_DURATION_MS idx with
    | .error j => (.error j, 1)
    | .ok (j, _) =>
      let r := beepLoop fail n f j
      (r.1, r.2 + 1)

/-- The function `play_alarm_pattern` (src/main.rs lines 200-214): `repeat_count` outer
iterations, each running the beep loop (with `?` propagation) and pauses.
Returns (result, total number of `play_tone` calls made). -/
def play_alarm_pattern (fail : Nat → Bool) : Nat → Nat → Nat → (Except Nat Nat) × Nat
  | 0, _, idx => (.ok idx, 0)
  | n + 1, f, idx =>
    match beepLoop fail BEEP_COUNT f idx with
    | (.error j, a) => (.error j, a)
    | (.ok j, a) =>
      let r := play_alarm_pattern fail n f j
      (r.1, a + r.2)

/-- The worker loop `buzzer_control_task` (src/main.rs lines 174-197) restricted to a finite
list of received `PlayAlarm{repeat_count, frequency}` messages: each message is
rendered with `play_alarm_pattern`; an error is logged (`false` in the result
list) and the loop continues with the next message. -/
def buzzer_control_task (fail : Nat → Bool) : List (Nat × Nat) → Nat → List Bool
  | [], _ => []
  | (rc, f) :: rest, idx =>
    match play_alarm_pattern fail rc f idx with
    | (.error j, _) => false :: buzzer_control_task fail rest j
    | (.ok j, _) => true :: buzzer_control_task fail rest j

/-- Counterexample to claim C6: with every pin write failing and
`repeat_count = 2` at 2000 Hz, the very first write error makes
`play_alarm_pattern` return the error having attempted only one `play_tone`
call — the remaining repeat iteration does **not** execute, because
`play_tone(...)?` propagates the error out of the whole pattern. -/
theorem play_alarm_abort_cex :
    (play_alarm_pattern (fun _ => true) 2 2000 0).1 = .error 1 ∧
    (play_alarm_pattern (fun _ => true) 2 2000 0).2 ≠ 2 := by
  exact ⟨rfl, by decide⟩

/-- Claim C6 (amended): a pin-write failure inside a tone aborts the whole
pattern: `play_alarm_pattern` makes exactly one `play_tone` call and returns
the error, skipping all remaining iterations; the error is logged by the
buzzer worker (`buzzer_control_task`), which goes on to process every
subsequent command (one result per received message). -/
theorem play_alarm_abort (fail : Nat → Bool) (f idx n j : Nat)
    (msgs : List (Nat × Nat)) (k : Nat)
    (herr : playTone fail f BEEP_DURATION_MS idx = .error j) :
    play_alarm_pattern fail (n + 1) f idx = (.error j, 1) ∧
    (buzzer_control_task fail msgs k).length = msgs.length := by
  constructor
  · have hb : beepLoop fail BEEP_COUNT f idx = (.error j, 1) := by
      show beepLoop fail 1 f idx = (.error j, 1)
      unfold beepLoop
      rw [herr]
    unfold play_alarm_pattern
    rw [hb]
  · induction msgs generalizing k with
    | nil => rfl
    | cons m rest ih =>
      obtain ⟨rc, fr⟩ := m
      unfold buzzer_control_task
      rcases hp : play_alarm_pattern fail rc fr k with ⟨r, a⟩
      cases r with
      | error j2 => simp [ih]
      | ok j2 => simp [ih]

/-- Witness for the amended C6: all writes fail, `repeat_count = 2`, one
pending message afterwards. -/
theorem play_alarm_abort_w :
    play_alarm_pattern (fun _ => true) 2 2000 0 = (.error 1, 1) ∧
    (buzzer_control_task (fun _ => true) [(5, 2600)] 0).length = 1 :=
  play_alarm_abort (fun _ => true) 2000 0 1 1 [(5, 2600)] 0 rfl
